import Mathlib

/-!
Verification development for the S3 file-upload backend
(upload-orchestration subsystem: validation, key derivation, metadata
codec, presigned-URL issuing, listing, and the orchestrating flows).

The TypeScript sources are embedded shallowly:

* pure helpers become Lean functions;
* the effectful clock and random source become explicit parameters
  (a millisecond timestamp, and the base-36 fraction digits that
  Math.random().toString(36).substring(2, 11) would produce);
* the object store becomes an association list from full keys to stored
  objects, and each service call additionally reports the trace of
  store operations it performed;
* fallible code returns Except over the error taxonomy of
  src/utils/errors.ts.

External library functions (encodeURIComponent / decodeURIComponent and
JSON.stringify / JSON.parse on string arrays) are passed in as function
parameters; theorems assume only their documented inverse laws.
-/

namespace Upload

/-! ## Characters, sanitisation and key generation
(src/services/file.service.ts generateSafeKey, src/utils/id.ts) -/

/-- Membership in the character class of the regex used by
generateSafeKey: a-z, A-Z, 0-9, dot, underscore, dash. -/
def isSafeChar (c : Char) : Bool :=
  ('a' ≤ c && c ≤ 'z') || ('A' ≤ c && c ≤ 'Z') || ('0' ≤ c && c ≤ '9') ||
    c == '.' || c == '_' || c == '-'

/-- One character of the sanitisation
filename.replace(/[^a-zA-Z0-9._-]/g, underscore): characters outside the
safe class are replaced by an underscore. -/
def sanitizeChar (c : Char) : Char :=
  if isSafeChar c then c else '_'

/-- The sanitisation step of generateSafeKey, applied character-wise. -/
def sanitize (s : String) : String :=
  String.mk (s.data.map sanitizeChar)

/-- Decimal digits of a natural number, least significant first, with
explicit fuel so that the definition is structural (JS renders numbers
such as Date.now() in decimal). -/
def decDigitsAux : Nat → Nat → List Nat
  | 0, _ => []
  | fuel + 1, n => if n = 0 then [] else n % 10 :: decDigitsAux fuel (n / 10)

/-- Character for a decimal digit (48 is the code of the zero digit). -/
def decChar (d : Nat) : Char := Char.ofNat (48 + d)

/-- Decimal rendering of a natural number, as JS string interpolation of
an integer timestamp produces it. -/
def decStr (n : Nat) : String :=
  if n = 0 then "0"
  else String.mk (((decDigitsAux n n).reverse).map decChar)

/-- Character for a base-36 digit, as produced by Number.toString(36):
digits 0-9 then lowercase letters a-z (97 is the code of the letter a). -/
def base36Digit (d : Fin 36) : Char :=
  if (d : Nat) < 10 then Char.ofNat (48 + (d : Nat)) else Char.ofNat (87 + (d : Nat))

/-- The random component Math.random().toString(36).substring(2, 11):
the first nine base-36 fraction digits of the random draw.  The draw is
represented by its list of fraction digits. -/
def randSuffix (ds : List (Fin 36)) : String :=
  String.mk ((ds.take 9).map base36Digit)

/-- generateFileId from src/utils/id.ts: Date.now(), a dash, and the
random base-36 suffix.  The clock value and the random digits are
explicit parameters. -/
def generateFileId (now : Nat) (ds : List (Fin 36)) : String :=
  decStr now ++ "-" ++ randSuffix ds

/-- generateSafeKey from src/services/file.service.ts: sanitise the
filename, take the supplied fileId if it is truthy (a non-empty string)
or generate one, and compose timestamp-id-sanitized.  now is the
Date.now() of this call; idNow and idDs feed the generateFileId call
made when no truthy fileId is supplied. -/
def generateSafeKey (now idNow : Nat) (idDs : List (Fin 36))
    (filename : String) (fileId : Option String) : String :=
  let sanitized := sanitize filename
  let id := match fileId with
    | some s => if s = "" then generateFileId idNow idDs else s
    | none => generateFileId idNow idDs
  decStr now ++ "-" ++ id ++ "-" ++ sanitized

/-! ## JS string.split and array.join
(used by listFiles to recover a filename from a key) -/

/-- Auxiliary accumulator recursion for splitting on a single character. -/
def splitCharAux (sep : Char) : List Char → List Char → List String
  | [], acc => [String.mk acc.reverse]
  | c :: cs, acc =>
      if c = sep then String.mk acc.reverse :: splitCharAux sep cs []
      else splitCharAux sep cs (c :: acc)

/-- JS String.prototype.split with a one-character separator. -/
def splitOnChar (sep : Char) (s : String) : List String :=
  splitCharAux sep s.data []

/-- JS Array.prototype.join with a one-character dash separator. -/
def joinDash : List String → String
  | [] => ""
  | [x] => x
  | x :: xs => x ++ "-" ++ joinDash xs

/-- The filename-recovery expression of FileService.listFiles:
key.split(dash).slice(2).join(dash). -/
def recoverFilename (key : String) : String :=
  joinDash ((splitOnChar '-' key).drop 2)

example : splitOnChar '-' "a-b-c" = ["a", "b", "c"] := by decide
example : splitOnChar '-' "" = [""] := by decide
example : splitOnChar '-' "--" = ["", "", ""] := by decide
example : joinDash ["a", "b"] = "a-b" := by decide
example : recoverFilename "1-2-x-y.txt" = "x-y.txt" := by decide
example : sanitize "a b/c.txt" = "a_b_c.txt" := by decide
example : generateFileId 99 [⟨10, by omega⟩] = "99-a" := by decide
example : generateSafeKey 7 99 [⟨10, by omega⟩] "f.txt" none = "7-99-a-f.txt" := by decide
example : generateSafeKey 7 99 [] "f.txt" (some "ID") = "7-ID-f.txt" := by decide

/-! ## Error taxonomy (src/utils/errors.ts)
AppError subclasses carrying an HTTP status code. -/

/-- Errors raised by the service layer: ValidationError (400),
NotFoundError (404), S3Error (500 class), each carrying its message. -/
inductive AppError where
  | validation (msg : String)
  | notFound (msg : String)
  | s3error (msg : String)
deriving DecidableEq, Repr

/-- HTTP status attached to each error kind. -/
def AppError.statusCode : AppError → Nat
  | .validation _ => 400
  | .notFound _ => 404
  | .s3error _ => 500

/-! ## Configuration (src/config/env.ts)
Only the fields the upload core reads. -/

/-- Configuration surface consumed by the services: bucket, key
namespace, expiry windows, size ceiling and the per-category MIME
allow-lists. -/
structure Config where
  bucketName : String
  pfx : String
  uploadExpirySeconds : Nat
  getExpirySeconds : Nat
  maxFileSizeBytes : Int
  maxFileSizeMB : Int
  allowedImageTypes : List String
  allowedVideoTypes : List String
  allowedDocumentTypes : List String
  allowedAudioTypes : List String
deriving DecidableEq, Repr

/-- config.upload.allAllowedTypes: concatenation of the four
per-category allow-lists, as env.ts builds it. -/
def Config.allAllowedTypes (cfg : Config) : List String :=
  cfg.allowedImageTypes ++ cfg.allowedVideoTypes ++
    cfg.allowedDocumentTypes ++ cfg.allowedAudioTypes

/-! ## File metadata and its header codec
(src/types/index.ts FileMetadata; encoding block of
S3Service.generatePresignedUploadUrl; decoding block of
S3Service.getFileMetadata) -/

/-- FileMetadata: the five schema fields plus the open extension map
([key: string]: unknown) restricted to string-valued entries. -/
structure FileMetadata where
  userId : Option String := none
  originalFilename : Option String := none
  tags : Option (List String) := none
  isPublic : Option Bool := none
  description : Option String := none
  extra : List (String × String) := []
deriving DecidableEq, Repr

/-- Header construction of S3Service.generatePresignedUploadUrl.  Each
field is emitted only when truthy in JS (non-empty string; any array;
any boolean via the explicit undefined check).  encURI stands for
encodeURIComponent and js for JSON.stringify on a string array.  The
open extension entries are never read. -/
def encodeMetadata (encURI : String → String) (js : List String → String)
    (m : FileMetadata) : List (String × String) :=
  (match m.userId with
    | some u => if u = "" then [] else [("x-amz-meta-user-id", u)]
    | none => []) ++
  (match m.originalFilename with
    | some f => if f = "" then [] else [("x-amz-meta-original-filename", encURI f)]
    | none => []) ++
  (match m.tags with
    | some l => [("x-amz-meta-tags", js l)]
    | none => []) ++
  (match m.isPublic with
    | some b => [("x-amz-meta-is-public", if b then "true" else "false")]
    | none => []) ++
  (match m.description with
    | some d => if d = "" then [] else [("x-amz-meta-description", encURI d)]
    | none => [])

/-- Prefix test on the underlying character lists (the behaviour of
String.startsWith, stated in a form the kernel evaluates). -/
def strStartsWith (s pat : String) : Bool :=
  pat.data.isPrefixOf s.data

/-- Removal of the first occurrence of a pattern, the behaviour of the
JS one-shot string replace with an empty replacement. -/
def removeFirst (pat : List Char) : List Char → List Char
  | [] => []
  | c :: cs =>
      if pat.isPrefixOf (c :: cs) then (c :: cs).drop pat.length
      else c :: removeFirst pat cs

/-- JS key.replace(prefix, empty string) as used by S3Service.listFiles. -/
def replaceFirstEmpty (s pat : String) : String :=
  String.mk (removeFirst pat.data s.data)

/-- Transport behaviour of the object store for custom metadata
headers, modelled from the AWS convention the code relies on: a header
sent as x-amz-meta-NAME comes back from HeadObject in the Metadata map
under NAME alone. -/
def stripMetaPfx (headers : List (String × String)) : List (String × String) :=
  headers.map (fun kv =>
    if strStartsWith kv.1 "x-amz-meta-" then
      (String.mk (kv.1.data.drop "x-amz-meta-".data.length), kv.2)
    else kv)

/-- Truthy lookup in the returned Metadata map: a missing entry and an
empty-string entry both fail the JS if-guard. -/
def getTruthy (md : List (String × String)) (k : String) : Option String :=
  match md.lookup k with
  | some v => if v = "" then none else some v
  | none => none

/-- Metadata extraction block of S3Service.getFileMetadata.  decURI
stands for decodeURIComponent and jp for JSON.parse on a string array;
a failing parse makes the surrounding try-catch rethrow as S3Error,
modelled here as none. -/
def decodeMetadata (decURI : String → String) (jp : String → Option (List String))
    (md : List (String × String)) : Option FileMetadata :=
  let userId := getTruthy md "user-id"
  let origFn := (getTruthy md "original-filename").map decURI
  let isPub := (getTruthy md "is-public").map (fun v => v == "true")
  let descr := (getTruthy md "description").map decURI
  match getTruthy md "tags" with
  | none => some { userId := userId, originalFilename := origFn, tags := none,
                   isPublic := isPub, description := descr, extra := [] }
  | some tv =>
      match jp tv with
      | none => none
      | some l => some { userId := userId, originalFilename := origFn, tags := some l,
                         isPublic := isPub, description := descr, extra := [] }

example :
    encodeMetadata id (fun _ => "[]")
      { userId := some "u7", tags := some ["a"], isPublic := some false } =
      [("x-amz-meta-user-id", "u7"), ("x-amz-meta-tags", "[]"),
       ("x-amz-meta-is-public", "false")] := by decide

example :
    decodeMetadata id (fun s => if s = "[]" then some ["a"] else none)
      (stripMetaPfx (encodeMetadata id (fun _ => "[]")
        { userId := some "u7", tags := some ["a"], isPublic := some false })) =
      some { userId := some "u7", tags := some ["a"], isPublic := some false } := by
  decide

/-! ## The object store and the S3 service (src/services/s3.service.ts)
The store is an association list from full (prefix-qualified) keys to
stored objects; every service call also reports the trace of store
operations it performed, so that claims about which storage calls
happen can be stated. -/

/-- An object at rest in the bucket: content type, byte size, the raw
Metadata map as HeadObject returns it (header names already stripped of
x-amz-meta-), and the last-modified instant in epoch milliseconds. -/
structure StoreObject where
  contentType : Option String := none
  size : Int := 0
  meta : List (String × String) := []
  lastModified : Int := 0
deriving DecidableEq, Repr

/-- The bucket contents, in listing order. -/
def Store := List (String × StoreObject)

/-- Operations issued against the object store, recorded by full key. -/
inductive S3Op where
  | head (key : String)
  | del (key : String)
  | signPut (key : String)
  | signGet (key : String)
  | list (searchPfx : String) (maxKeys : Int)
deriving DecidableEq, Repr

/-- Whether an operation mutates the store or signs a URL (everything
except the read-only HEAD and LIST). -/
def S3Op.isMutatingOrSigning : S3Op → Bool
  | .del _ => true
  | .signPut _ => true
  | .signGet _ => true
  | _ => false

/-- The PutObjectCommand input built by
S3Service.generatePresignedUploadUrl: bucket, full key, content type,
the spread metadata headers, and the conditionally spread
ContentLength. -/
structure PutCommand where
  bucket : String
  key : String
  contentType : String
  metadataHeaders : List (String × String)
  contentLength : Option Int
deriving DecidableEq, Repr

/-- The GetObjectCommand input built by
S3Service.generatePresignedGetUrl: bucket and full key. -/
structure GetCommand where
  bucket : String
  key : String
deriving DecidableEq, Repr

/-- S3Service.generatePresignedUploadUrl.  Builds the full key, the
metadata headers (when metadata was passed) and the put command; the
ContentLength condition is spread only when maxSizeBytes is truthy,
so a zero maximum is dropped.  Returns the command, the configured
upload expiry window, and the operation trace. -/
def s3GeneratePresignedUploadUrl (cfg : Config) (encURI : String → String)
    (js : List String → String) (key contentType : String)
    (metadata : Option FileMetadata) (maxSizeBytes : Option Int) :
    (PutCommand × Nat) × List S3Op :=
  let fullKey := cfg.pfx ++ key
  let metadataHeaders := match metadata with
    | some m => encodeMetadata encURI js m
    | none => []
  let cmd : PutCommand :=
    { bucket := cfg.bucketName
      key := fullKey
      contentType := contentType
      metadataHeaders := metadataHeaders
      contentLength := match maxSizeBytes with
        | some n => if n = 0 then none else some n
        | none => none }
  ((cmd, cfg.uploadExpirySeconds), [.signPut fullKey])

/-- S3Service.generatePresignedGetUrl: bucket and full key signed with
the separately configured GET expiry window. -/
def s3GeneratePresignedGetUrl (cfg : Config) (key : String) :
    (GetCommand × Nat) × List S3Op :=
  let fullKey := cfg.pfx ++ key
  (({ bucket := cfg.bucketName, key := fullKey }, cfg.getExpirySeconds),
   [.signGet fullKey])

/-- S3Service.deleteFile: issues the delete on the full key. -/
def s3DeleteFile (cfg : Config) (key : String) : Unit × List S3Op :=
  ((), [.del (cfg.pfx ++ key)])

/-- Result of S3Service.getFileMetadata. -/
structure HeadResult where
  fileExists : Bool
  contentType : Option String := none
  size : Option Int := none
  metadata : Option FileMetadata := none
  lastModified : Option Int := none
deriving DecidableEq, Repr

/-- S3Service.getFileMetadata: HEAD the full key; a NotFound from the
store is the normal exists-false outcome; otherwise the metadata block
is decoded (a malformed tags header makes JSON.parse throw inside the
try, rethrown as S3Error), and an empty decoded record is exposed as an
absent metadata field. -/
def s3GetFileMetadata (cfg : Config) (decURI : String → String)
    (jp : String → Option (List String)) (store : Store) (key : String) :
    Except AppError HeadResult × List S3Op :=
  let fullKey := cfg.pfx ++ key
  match List.lookup fullKey store with
  | none => (.ok { fileExists := false }, [.head fullKey])
  | some obj =>
      match decodeMetadata decURI jp obj.meta with
      | none => (.error (.s3error "Failed to get file metadata"), [.head fullKey])
      | some md =>
          (.ok { fileExists := true
                 contentType := obj.contentType
                 size := some obj.size
                 metadata := if md = {} then none else some md
                 lastModified := some obj.lastModified },
           [.head fullKey])

/-- One entry of the S3Service.listFiles result: the key with the
namespace prefix removed (first occurrence, as JS replace does), the
size, the last-modified instant, and a content type that ListObjectsV2
never supplies. -/
structure ListedObject where
  key : String
  size : Int
  lastModified : Int
  contentType : Option String := none
deriving DecidableEq, Repr

/-- Result of S3Service.listFiles. -/
structure S3ListResult where
  files : List ListedObject
  isTruncated : Bool
deriving DecidableEq, Repr

/-- S3Service.listFiles: the search prefix is the namespace prefix
alone when the argument is falsy, otherwise the two concatenated; the
store answers (modelled from the ListObjectsV2 contract) with up to
maxKeys matching objects in listing order and a truncation flag. -/
def s3ListFiles (cfg : Config) (store : Store) (pfxArg : String)
    (maxKeys : Int) : S3ListResult × List S3Op :=
  let searchPfx := if pfxArg = "" then cfg.pfx else cfg.pfx ++ pfxArg
  let matching := store.filter (fun kv => strStartsWith kv.1 searchPfx)
  let taken := matching.take maxKeys.toNat
  ({ files := taken.map (fun kv =>
       { key := replaceFirstEmpty kv.1 cfg.pfx
         size := kv.2.size
         lastModified := kv.2.lastModified
         contentType := none })
     isTruncated := decide (maxKeys.toNat < matching.length) },
   [.list searchPfx maxKeys])

/-! ## The file service (src/services/file.service.ts) -/

/-- Body of a presign-upload request (src/types/index.ts). -/
structure PresignUploadRequest where
  filename : String
  contentType : String
  size : Option Int := none
  metadata : Option FileMetadata := none
deriving DecidableEq, Repr

/-- FileService.validateMimeType: membership in the combined
allow-list, with the message listing the allowed types. -/
def validateMimeType (cfg : Config) (contentType : String) : Except AppError Unit :=
  if cfg.allAllowedTypes.contains contentType then .ok ()
  else .error (.validation ("Content type " ++ contentType ++
    " is not allowed. Allowed types: " ++ String.intercalate ", " cfg.allAllowedTypes))

/-- FileService.validateFileSize: only a present size above the
configured ceiling fails. -/
def validateFileSize (cfg : Config) (size : Option Int) : Except AppError Unit :=
  match size with
  | none => .ok ()
  | some s =>
      if s > cfg.maxFileSizeBytes then
        .error (.validation ("File size " ++ toString s ++
          " bytes exceeds maximum allowed size of " ++ toString cfg.maxFileSizeBytes ++
          " bytes (" ++ toString cfg.maxFileSizeMB ++ " MB)"))
      else .ok ()

/-- Response of the issue-upload flow.  The URL is represented by the
signed command itself (signing is opaque) next to the absolute expiry
offset. -/
structure PresignUploadResponse where
  uploadUrl : PutCommand
  uploadMethod : String
  key : String
  expiresIn : Nat
  fileId : String
deriving DecidableEq, Repr

/-- FileService.generatePresignedUploadUrl: validate the MIME type,
validate the size, generate a file id and a safe key from it, merge the
request metadata with the original filename, and sign the put command.
idNow and idDs feed the generateFileId call; keyNow is the Date.now()
of generateSafeKey (whose internal id generation is unreachable here
because the passed fileId is never empty). -/
def fileGeneratePresignedUploadUrl (cfg : Config) (encURI : String → String)
    (js : List String → String) (idNow : Nat) (idDs : List (Fin 36))
    (keyNow kgNow : Nat) (kgDs : List (Fin 36)) (req : PresignUploadRequest) :
    Except AppError PresignUploadResponse × List S3Op :=
  match validateMimeType cfg req.contentType with
  | .error e => (.error e, [])
  | .ok _ =>
    match validateFileSize cfg req.size with
    | .error e => (.error e, [])
    | .ok _ =>
        let fileId := generateFileId idNow idDs
        let key := generateSafeKey keyNow kgNow kgDs req.filename (some fileId)
        let md := { (match req.metadata with | some m => m | none => {}) with
                      originalFilename := some req.filename }
        let ((cmd, expiry), ops) :=
          s3GeneratePresignedUploadUrl cfg encURI js key req.contentType (some md) req.size
        (.ok { uploadUrl := cmd, uploadMethod := "PUT", key := key,
               expiresIn := expiry, fileId := fileId }, ops)

/-- Response of the retrieve flow. -/
structure PresignGetResponse where
  url : GetCommand
  expiresIn : Nat
deriving DecidableEq, Repr

/-- FileService.generatePresignedGetUrl: existence check first, 404
when absent, otherwise sign the GET. -/
def fileGeneratePresignedGetUrl (cfg : Config) (decURI : String → String)
    (jp : String → Option (List String)) (store : Store) (key : String) :
    Except AppError PresignGetResponse × List S3Op :=
  match s3GetFileMetadata cfg decURI jp store key with
  | (.error e, ops) => (.error e, ops)
  | (.ok h, ops) =>
      if h.fileExists then
        let ((cmd, expiry), ops2) := s3GeneratePresignedGetUrl cfg key
        (.ok { url := cmd, expiresIn := expiry }, ops ++ ops2)
      else (.error (.notFound ("File with key " ++ key ++ " not found")), ops)

/-- FileService.deleteFile: existence check first, 404 when absent,
otherwise delegate the delete. -/
def fileDeleteFile (cfg : Config) (decURI : String → String)
    (jp : String → Option (List String)) (store : Store) (key : String) :
    Except AppError Unit × List S3Op :=
  match s3GetFileMetadata cfg decURI jp store key with
  | (.error e, ops) => (.error e, ops)
  | (.ok h, ops) =>
      if h.fileExists then
        let (_, ops2) := s3DeleteFile cfg key
        (.ok (), ops ++ ops2)
      else (.error (.notFound ("File with key " ++ key ++ " not found")), ops)

/-- Body of the upload-complete callback. -/
structure UploadCompleteRequest where
  key : String
  metadata : Option FileMetadata := none
deriving DecidableEq, Repr

/-- Response of the upload-complete flow. -/
structure UploadCompleteResponse where
  success : Bool
  message : String
  key : String
deriving DecidableEq, Repr

/-- FileService.handleUploadComplete: existence check, 404 when
absent, otherwise an acknowledgement with no further processing. -/
def fileHandleUploadComplete (cfg : Config) (decURI : String → String)
    (jp : String → Option (List String)) (store : Store)
    (req : UploadCompleteRequest) :
    Except AppError UploadCompleteResponse × List S3Op :=
  match s3GetFileMetadata cfg decURI jp store req.key with
  | (.error e, ops) => (.error e, ops)
  | (.ok h, ops) =>
      if h.fileExists then
        (.ok { success := true, message := "Upload completed successfully",
               key := req.key }, ops)
      else (.error (.notFound ("File with key " ++ req.key ++ " not found")), ops)

/-- Query accepted by the list flow (src/types/index.ts). -/
structure ListFilesQuery where
  userId : Option String := none
  tags : Option String := none
  page : Option Int := none
  limit : Option Int := none
  pfxQ : Option String := none
deriving DecidableEq, Repr

/-- One row of the list response. -/
structure FileRecord where
  key : String
  filename : String
  contentType : String
  size : Int
  uploadedAt : Int
deriving DecidableEq, Repr

/-- Pagination block of the list response. -/
structure Pagination where
  page : Int
  limit : Int
  total : Int
  hasMore : Bool
deriving DecidableEq, Repr

/-- The list response. -/
structure ListFilesResponse where
  files : List FileRecord
  pagination : Pagination
deriving DecidableEq, Repr

/-- FileService.listFiles: clamp page to at least 1 and limit into
1..100 (falsy requested values, that is absent or zero, fall back to
the defaults first), delegate to the store listing, recover each
filename by dropping the first two dash segments of the key, and
assemble the pagination block.  The userId and tags inputs are read
only by dead placeholder code. -/
def fileListFiles (cfg : Config) (store : Store) (q : ListFilesQuery) :
    ListFilesResponse × List S3Op :=
  let page : Int := max 1 (match q.page with | none => 1 | some p => if p = 0 then 1 else p)
  let limit : Int :=
    min 100 (max 1 (match q.limit with | none => 20 | some l => if l = 0 then 20 else l))
  let pfxArg := match q.pfxQ with | none => "" | some p => p
  let (result, ops) := s3ListFiles cfg store pfxArg limit
  let files := result.files.map (fun f =>
    { key := f.key
      filename := recoverFilename f.key
      contentType := match f.contentType with
        | none => "application/octet-stream"
        | some c => if c = "" then "application/octet-stream" else c
      size := f.size
      uploadedAt := f.lastModified })
  ({ files := files
     pagination := { page := page, limit := limit, total := files.length,
                     hasMore := result.isTruncated } }, ops)

/-! ## HTTP-layer query validation
(unnamed sources: upload.schemas.ts listFilesQuerySchema and the
validation middleware) -/

/-- listFilesQuerySchema on the coerced numeric fields: page must be a
positive integer when present, limit a positive integer at most 100. -/
def listFilesQuerySchemaCheck (q : ListFilesQuery) : Bool :=
  (match q.page with | none => true | some p => decide (1 ≤ p)) &&
  (match q.limit with | none => true | some l => decide (1 ≤ l) && decide (l ≤ 100))

/-- The GET /files pipeline: the validation middleware parses the query
against listFilesQuerySchema and rejects failures with a
ValidationError before the service runs. -/
def listFilesEndpoint (cfg : Config) (store : Store) (q : ListFilesQuery) :
    Except AppError ListFilesResponse × List S3Op :=
  if listFilesQuerySchemaCheck q then
    let (r, ops) := fileListFiles cfg store q
    (.ok r, ops)
  else (.error (.validation "Validation failed"), [])

/-! ## Concrete fixtures used by witnesses and counterexamples -/

/-- A concrete configuration with the documented default expiry
windows, a 100 MB ceiling and a small allow-list. -/
def cfg0 : Config :=
  { bucketName := "test-bucket"
    pfx := "uploads/"
    uploadExpirySeconds := 900
    getExpirySeconds := 3600
    maxFileSizeBytes := 104857600
    maxFileSizeMB := 100
    allowedImageTypes := ["image/jpeg", "image/png"]
    allowedVideoTypes := ["video/mp4"]
    allowedDocumentTypes := ["application/pdf"]
    allowedAudioTypes := ["audio/mpeg"] }

/-! ## Claims -/

/-- C5: for every upload request whose contentType is not in the
configured allow-list (the union of the four category lists), the
issue-upload flow fails with a ValidationError and performs no storage
operation at all. -/
theorem claim5_mime_allowlist_rejects_before_storage
    (cfg : Config) (encURI : String → String) (js : List String → String)
    (idNow : Nat) (idDs : List (Fin 36)) (keyNow kgNow : Nat) (kgDs : List (Fin 36))
    (req : PresignUploadRequest)
    (h : cfg.allAllowedTypes.contains req.contentType = false) :
    fileGeneratePresignedUploadUrl cfg encURI js idNow idDs keyNow kgNow kgDs req =
      (.error (.validation ("Content type " ++ req.contentType ++
        " is not allowed. Allowed types: " ++
        String.intercalate ", " cfg.allAllowedTypes)), []) := by
  have h' : req.contentType ∉ cfg.allAllowedTypes := by simpa using h
  simp [fileGeneratePresignedUploadUrl, validateMimeType, h']

/-- Witness for C5: a request with the disallowed type
application/x-msdownload is rejected with the validation message and an
empty operation trace. -/
theorem claim5_witness :
    fileGeneratePresignedUploadUrl cfg0 id (fun _ => "[]") 1 [] 2 3 []
        { filename := "test.exe", contentType := "application/x-msdownload" } =
      (.error (.validation ("Content type application/x-msdownload is not allowed. " ++
        "Allowed types: image/jpeg, image/png, video/mp4, application/pdf, audio/mpeg")), []) :=
  claim5_mime_allowlist_rejects_before_storage cfg0 id (fun _ => "[]") 1 [] 2 3 []
    { filename := "test.exe", contentType := "application/x-msdownload" } (by decide)

/-- C7: an upload request carrying a size above the configured byte
ceiling makes the issue-upload flow fail with a ValidationError and no
storage call, while an absent size or a size at most the ceiling passes
the size check. -/
theorem claim7_size_ceiling (cfg : Config) (encURI : String → String)
    (js : List String → String) (idNow : Nat) (idDs : List (Fin 36))
    (keyNow kgNow : Nat) (kgDs : List (Fin 36)) (req : PresignUploadRequest)
    (s : Int) (hs : req.size = some s) (hgt : s > cfg.maxFileSizeBytes) :
    (∃ msg, fileGeneratePresignedUploadUrl cfg encURI js idNow idDs keyNow kgNow kgDs req =
      (.error (.validation msg), [])) ∧
    validateFileSize cfg none = .ok () ∧
    (∀ t : Int, t ≤ cfg.maxFileSizeBytes → validateFileSize cfg (some t) = .ok ()) := by
  refine ⟨?_, rfl, ?_⟩
  · by_cases hm : req.contentType ∈ cfg.allAllowedTypes
    · refine ⟨"File size " ++ toString s ++ " bytes exceeds maximum allowed size of " ++
        toString cfg.maxFileSizeBytes ++ " bytes (" ++ toString cfg.maxFileSizeMB ++ " MB)", ?_⟩
      simp [fileGeneratePresignedUploadUrl, validateMimeType, hm, validateFileSize, hs, hgt]
    · refine ⟨"Content type " ++ req.contentType ++ " is not allowed. Allowed types: " ++
        String.intercalate ", " cfg.allAllowedTypes, ?_⟩
      simp [fileGeneratePresignedUploadUrl, validateMimeType, hm]
  · intro t ht
    simp only [validateFileSize]
    rw [if_neg (by omega)]

/-- Witness for C7: a 200 MB request against the 100 MB ceiling fails
with a ValidationError and no storage call, the absent size passes, and
any size within the ceiling passes. -/
theorem claim7_witness :
    (∃ msg, fileGeneratePresignedUploadUrl cfg0 id (fun _ => "[]") 1 [] 2 3 []
      { filename := "big.bin", contentType := "application/pdf",
        size := some 209715200 } = (.error (.validation msg), [])) ∧
    validateFileSize cfg0 none = .ok () ∧
    (∀ t : Int, t ≤ cfg0.maxFileSizeBytes → validateFileSize cfg0 (some t) = .ok ()) :=
  claim7_size_ceiling cfg0 id (fun _ => "[]") 1 [] 2 3 []
    { filename := "big.bin", contentType := "application/pdf", size := some 209715200 }
    209715200 rfl (by decide)

/-- C4: when the key is absent from the store, the existence check
reports exists false, and the Retrieve, Delete and Complete flows each
fail with NotFoundError (status 404) after the HEAD alone — the trace
holds no delete and no URL-signing operation. -/
theorem claim4_notfound_flows (cfg : Config) (decURI : String → String)
    (jp : String → Option (List String)) (store : Store) (key : String)
    (h : List.lookup (cfg.pfx ++ key) store = none) :
    (s3GetFileMetadata cfg decURI jp store key).1 = .ok { fileExists := false } ∧
    fileGeneratePresignedGetUrl cfg decURI jp store key =
      (.error (.notFound ("File with key " ++ key ++ " not found")),
       [.head (cfg.pfx ++ key)]) ∧
    fileDeleteFile cfg decURI jp store key =
      (.error (.notFound ("File with key " ++ key ++ " not found")),
       [.head (cfg.pfx ++ key)]) ∧
    (∀ md, fileHandleUploadComplete cfg decURI jp store { key := key, metadata := md } =
      (.error (.notFound ("File with key " ++ key ++ " not found")),
       [.head (cfg.pfx ++ key)])) ∧
    AppError.statusCode (.notFound ("File with key " ++ key ++ " not found")) = 404 ∧
    (S3Op.head (cfg.pfx ++ key)).isMutatingOrSigning = false := by
  refine ⟨?_, ?_, ?_, fun md => ?_, rfl, rfl⟩ <;>
    simp [s3GetFileMetadata, fileGeneratePresignedGetUrl, fileDeleteFile,
      fileHandleUploadComplete, h]

/-- Witness for C4: on an empty store every flow on the key missing
answers 404 without a delete or signing operation. -/
theorem claim4_witness :
    (s3GetFileMetadata cfg0 id (fun _ => none) [] "missing").1 =
      .ok { fileExists := false } ∧
    fileGeneratePresignedGetUrl cfg0 id (fun _ => none) [] "missing" =
      (.error (.notFound "File with key missing not found"), [.head "uploads/missing"]) ∧
    fileDeleteFile cfg0 id (fun _ => none) [] "missing" =
      (.error (.notFound "File with key missing not found"), [.head "uploads/missing"]) ∧
    (∀ md, fileHandleUploadComplete cfg0 id (fun _ => none) []
        { key := "missing", metadata := md } =
      (.error (.notFound "File with key missing not found"), [.head "uploads/missing"])) ∧
    AppError.statusCode (.notFound "File with key missing not found") = 404 ∧
    (S3Op.head "uploads/missing").isMutatingOrSigning = false :=
  claim4_notfound_flows cfg0 id (fun _ => none) [] "missing" rfl

/-- C6 counterexample: the claim says a list request is never rejected
whatever page and limit are; but the GET /files pipeline validates the
query against listFilesQuerySchema first, and a limit of 101 (or a
non-positive page) is rejected with a ValidationError (status 400)
before the service clamp ever runs. -/
theorem claim6_counterexample :
    listFilesEndpoint cfg0 [] { page := some 0, limit := some 101 } =
      (.error (.validation "Validation failed"), []) ∧
    AppError.statusCode (.validation "Validation failed") = 400 := by
  exact ⟨rfl, rfl⟩

/-- C6 as amended: the service-layer list operation itself always
succeeds and clamps — the returned limit lies in 1..100 and the page is
at least 1 whatever was requested, with absent values defaulting to 20
and 1 — but requests whose page or limit fail the query schema (a
non-positive value, or a limit above 100) are rejected with a
ValidationError by the validation middleware before the service runs. -/
theorem claim6_clamping (cfg : Config) (store : Store) (q : ListFilesQuery) :
    1 ≤ (fileListFiles cfg store q).1.pagination.limit ∧
    (fileListFiles cfg store q).1.pagination.limit ≤ 100 ∧
    1 ≤ (fileListFiles cfg store q).1.pagination.page ∧
    (q.limit = none → (fileListFiles cfg store q).1.pagination.limit = 20) ∧
    (q.page = none → (fileListFiles cfg store q).1.pagination.page = 1) ∧
    (listFilesQuerySchemaCheck q = false →
      listFilesEndpoint cfg store q = (.error (.validation "Validation failed"), [])) := by
  refine ⟨?_, ?_, ?_, ?_, ?_, ?_⟩
  · rcases q with ⟨u, t, p, l, pf⟩
    rcases l with _ | l
    · simp [fileListFiles, s3ListFiles]
    · simp only [fileListFiles, s3ListFiles]; omega
  · rcases q with ⟨u, t, p, l, pf⟩
    rcases l with _ | l
    · simp [fileListFiles, s3ListFiles]
    · simp only [fileListFiles, s3ListFiles]; omega
  · rcases q with ⟨u, t, p, l, pf⟩
    rcases p with _ | p
    · simp [fileListFiles, s3ListFiles]
    · simp only [fileListFiles, s3ListFiles]; omega
  · intro hl
    rcases q with ⟨u, t, p, l, pf⟩
    cases hl
    simp [fileListFiles, s3ListFiles]
  · intro hp
    rcases q with ⟨u, t, p, l, pf⟩
    cases hp
    simp [fileListFiles, s3ListFiles]
  · intro hc
    simp [listFilesEndpoint, hc]

/-- Witness for C6: with limit 101 and page 0 requested, the service
itself would clamp the limit into range, and the pipeline rejects the
request with a ValidationError. -/
theorem claim6_witness :
    (fileListFiles cfg0 [] { page := some 0, limit := some 101 }).1.pagination.limit ≤ 100 ∧
    listFilesEndpoint cfg0 [] { page := some 0, limit := some 101 } =
      (.error (.validation "Validation failed"), []) :=
  ⟨(claim6_clamping cfg0 [] { page := some 0, limit := some 101 }).2.1,
   (claim6_clamping cfg0 [] { page := some 0, limit := some 101 }).2.2.2.2.2 (by decide)⟩

/-- C10: two list queries that agree on prefix and limit produce the
identical files sequence, total and hasMore (and the same echoed
limit), whatever their page, userId and tags are — those three inputs
never influence which files come back. -/
theorem claim10_list_noninterference (cfg : Config) (store : Store)
    (q1 q2 : ListFilesQuery) (hp : q1.pfxQ = q2.pfxQ) (hl : q1.limit = q2.limit) :
    (fileListFiles cfg store q1).1.files = (fileListFiles cfg store q2).1.files ∧
    (fileListFiles cfg store q1).1.pagination.total =
      (fileListFiles cfg store q2).1.pagination.total ∧
    (fileListFiles cfg store q1).1.pagination.hasMore =
      (fileListFiles cfg store q2).1.pagination.hasMore ∧
    (fileListFiles cfg store q1).1.pagination.limit =
      (fileListFiles cfg store q2).1.pagination.limit := by
  refine ⟨?_, ?_, ?_, ?_⟩ <;> simp only [fileListFiles, s3ListFiles, hp, hl]

/-- Witness for C10: two queries over the same prefix and limit but
with different pages, userIds and tags list the same files with equal
totals and truncation flags, on a store holding two objects. -/
theorem claim10_witness :
    (fileListFiles cfg0
        [("uploads/1-2-a.png", { size := 10 }), ("uploads/1-2-b.png", { size := 20 })]
        { userId := some "alice", tags := some "x,y", page := some 1,
          limit := some 10 }).1.files =
      (fileListFiles cfg0
        [("uploads/1-2-a.png", { size := 10 }), ("uploads/1-2-b.png", { size := 20 })]
        { userId := none, tags := none, page := some 99, limit := some 10 }).1.files ∧
    (fileListFiles cfg0
        [("uploads/1-2-a.png", { size := 10 }), ("uploads/1-2-b.png", { size := 20 })]
        { userId := some "alice", tags := some "x,y", page := some 1,
          limit := some 10 }).1.pagination.total =
      (fileListFiles cfg0
        [("uploads/1-2-a.png", { size := 10 }), ("uploads/1-2-b.png", { size := 20 })]
        { userId := none, tags := none, page := some 99,
          limit := some 10 }).1.pagination.total :=
  ⟨(claim10_list_noninterference cfg0 _ _ _ rfl rfl).1,
   (claim10_list_noninterference cfg0 _ _ _ rfl rfl).2.1⟩

/-! ## Character-set lemmas for the generated keys -/

/-- Every entry produced by the decimal digit recursion is below 10. -/
theorem decDigitsAux_lt (fuel n : Nat) : ∀ d ∈ decDigitsAux fuel n, d < 10 := by
  induction fuel generalizing n with
  | zero => intro d hd; simp [decDigitsAux] at hd
  | succ fuel ih =>
    intro d hd
    by_cases h : n = 0
    · simp [decDigitsAux, h] at hd
    · simp only [decDigitsAux, h, if_false, List.mem_cons] at hd
      rcases hd with rfl | hd
      · exact Nat.mod_lt _ (by omega)
      · exact ih (n / 10) d hd

/-- Every character of the decimal rendering is in the safe class. -/
theorem decStr_safe (n : Nat) : ∀ c ∈ (decStr n).data, isSafeChar c = true := by
  intro c hc
  unfold decStr at hc
  by_cases h : n = 0
  · simp [h] at hc
    subst hc; decide
  · simp only [h, if_false] at hc
    rcases List.mem_map.1 hc with ⟨d, hd, rfl⟩
    have hlt : d < 10 := decDigitsAux_lt n n d (List.mem_reverse.1 hd)
    have hall : ∀ d, d < 10 → isSafeChar (decChar d) = true := by decide
    exact hall d hlt

/-- Every base-36 digit character is in the safe class. -/
theorem base36Digit_safe : ∀ d : Fin 36, isSafeChar (base36Digit d) = true := by decide

/-- Every character of the random suffix is in the safe class. -/
theorem randSuffix_safe (ds : List (Fin 36)) :
    ∀ c ∈ (randSuffix ds).data, isSafeChar c = true := by
  intro c hc
  rcases List.mem_map.1 hc with ⟨d, _, rfl⟩
  exact base36Digit_safe d

/-- Every character of a sanitised filename is in the safe class. -/
theorem sanitize_safe (s : String) : ∀ c ∈ (sanitize s).data, isSafeChar c = true := by
  intro c hc
  rcases List.mem_map.1 hc with ⟨c0, _, rfl⟩
  unfold sanitizeChar
  by_cases h : isSafeChar c0 = true
  · simp [h]
  · rw [if_neg h]
    decide

/-- Every character of a generated file id is in the safe class. -/
theorem generateFileId_safe (now : Nat) (ds : List (Fin 36)) :
    ∀ c ∈ (generateFileId now ds).data, isSafeChar c = true := by
  intro c hc
  simp only [generateFileId, String.data_append, List.mem_append] at hc
  rcases hc with (hc | hc) | hc
  · exact decStr_safe now c hc
  · simp at hc; subst hc; decide
  · exact randSuffix_safe ds c hc

/-- A character in the safe class is neither a slash nor a backslash. -/
theorem safeChar_not_sep (c : Char) (h : isSafeChar c = true) : c ≠ '/' ∧ c ≠ '\\' := by
  constructor
  · rintro rfl; exact absurd h (by decide)
  · rintro rfl; exact absurd h (by decide)

/-- C9: every character of a key produced by generateSafeKey — with
the fileId either absent or produced by generateFileId, as the upload
flow does — lies in the class a-zA-Z0-9._- and in particular is never a
slash or backslash, so the key holds no path separator and no
path-escaping sequence. -/
theorem claim9_key_charset (now idNow : Nat) (idDs : List (Fin 36)) (f : String)
    (fid : Option String) (a : Nat) (b : List (Fin 36))
    (hfid : fid = none ∨ fid = some (generateFileId a b)) :
    ∀ c ∈ (generateSafeKey now idNow idDs f fid).data,
      isSafeChar c = true ∧ c ≠ '/' ∧ c ≠ '\\' := by
  have main : ∀ x : Nat, ∀ y : List (Fin 36),
      ∀ c ∈ (decStr now ++ "-" ++ generateFileId x y ++ "-" ++ sanitize f).data,
        isSafeChar c = true := by
    intro x y c hc
    simp only [String.data_append, List.mem_append] at hc
    rcases hc with (((hc | hc) | hc) | hc) | hc
    · exact decStr_safe now c hc
    · simp at hc; subst hc; decide
    · exact generateFileId_safe x y c hc
    · simp at hc; subst hc; decide
    · exact sanitize_safe f c hc
  have safe : ∀ c ∈ (generateSafeKey now idNow idDs f fid).data, isSafeChar c = true := by
    rcases hfid with rfl | rfl
    · intro c hc
      exact main idNow idDs c hc
    · intro c hc
      by_cases hg : generateFileId a b = ""
      · have he : generateSafeKey now idNow idDs f (some (generateFileId a b)) =
            decStr now ++ "-" ++ generateFileId idNow idDs ++ "-" ++ sanitize f := by
          simp [generateSafeKey, hg]
        rw [he] at hc
        exact main idNow idDs c hc
      · have he : generateSafeKey now idNow idDs f (some (generateFileId a b)) =
            decStr now ++ "-" ++ generateFileId a b ++ "-" ++ sanitize f := by
          simp [generateSafeKey, hg]
        rw [he] at hc
        exact main a b c hc
  intro c hc
  exact ⟨safe c hc, safeChar_not_sep c (safe c hc)⟩

/-- Witness for C9: the character f of a concretely generated key is
safe and is no path separator. -/
theorem claim9_witness : isSafeChar 'f' = true ∧ 'f' ≠ '/' ∧ 'f' ≠ '\\' :=
  claim9_key_charset 7 99 [] "f!.txt" none 0 [] (Or.inl rfl) 'f' (by decide)

/-- C8 counterexample: the claim promises unconditionally distinct keys
for two successive calls; but the only sources of distinctness are the
clock and the Math.random draw, so two calls that observe the same
millisecond and the same random fraction digits produce the very same
key — shown here at timestamp 1700000000000 with the single base-36
digit a. -/
theorem claim8_counterexample :
    generateSafeKey 1700000000000 1700000000000 [(10 : Fin 36)] "report.pdf" none =
      generateSafeKey 1700000000000 1700000000000 [(10 : Fin 36)] "report.pdf" none ∧
    generateSafeKey 1700000000000 1700000000000 [(10 : Fin 36)] "report.pdf" none =
      "1700000000000-1700000000000-a-report.pdf" :=
  ⟨rfl, by decide⟩

/-- C8 as amended: two generateSafeKey calls without a caller-supplied
id, observing the same millisecond timestamps, yield distinct keys
whenever their random suffix draws differ; distinctness is carried
entirely by the random component and is not unconditional. -/
theorem claim8_distinct_keys (now idNow : Nat) (f : String)
    (ds1 ds2 : List (Fin 36)) (h : randSuffix ds1 ≠ randSuffix ds2) :
    generateSafeKey now idNow ds1 f none ≠ generateSafeKey now idNow ds2 f none := by
  intro he
  apply h
  have e1 : generateSafeKey now idNow ds1 f none =
      decStr now ++ "-" ++ (decStr idNow ++ "-" ++ randSuffix ds1) ++ "-" ++ sanitize f := rfl
  have e2 : generateSafeKey now idNow ds2 f none =
      decStr now ++ "-" ++ (decStr idNow ++ "-" ++ randSuffix ds2) ++ "-" ++ sanitize f := rfl
  rw [e1, e2] at he
  have hd := congrArg String.data he
  simp only [String.data_append, List.append_assoc] at hd
  have h1 := List.append_cancel_left hd
  have h2 := List.append_cancel_left h1
  have h3 := List.append_cancel_left h2
  have h4 := List.append_cancel_left h3
  have h5 : (randSuffix ds1).data ++ (("-" : String).data ++ (sanitize f).data) =
      (randSuffix ds2).data ++ (("-" : String).data ++ (sanitize f).data) := by
    simpa [List.append_assoc] using h4
  exact String.ext (List.append_cancel_right h5)

/-- Witness for C8: two same-timestamp calls whose random draws differ
(the empty draw against the digit a) produce different keys. -/
theorem claim8_witness :
    randSuffix [] ≠ randSuffix [(10 : Fin 36)] ∧
    generateSafeKey 5 5 [] "a.txt" none ≠ generateSafeKey 5 5 [(10 : Fin 36)] "a.txt" none :=
  ⟨by decide, claim8_distinct_keys 5 5 "a.txt" [] [(10 : Fin 36)] (by decide)⟩

/-- C1: the recoverability contract is broken by the code.  The upload
flow builds the key as timestamp-fileId-sanitized, but generateFileId
itself embeds a dash (Date.now(), dash, random suffix), so the key has
four dash segments before the filename; the list-side recovery drops
only the first two segments and therefore returns the random id
component glued onto the sanitized filename.  Evaluated concretely: at
clock 1000 with random digits a b c and filename photo.png the key is
1000-1000-abc-photo.png, the recovery yields abc-photo.png, and that
differs from the sanitized filename photo.png — also visible end to end
through the list flow. -/
theorem claim1_filename_recovery_broken :
    generateSafeKey 1000 1000 []
        "photo.png" (some (generateFileId 1000 [(10 : Fin 36), 11, 12])) =
      "1000-1000-abc-photo.png" ∧
    recoverFilename "1000-1000-abc-photo.png" = "abc-photo.png" ∧
    sanitize "photo.png" = "photo.png" ∧
    recoverFilename "1000-1000-abc-photo.png" ≠ sanitize "photo.png" ∧
    (fileListFiles cfg0 [("uploads/1000-1000-abc-photo.png", { size := 7 })]
        {}).1.files.map (fun r => r.filename) = ["abc-photo.png"] := by
  refine ⟨by decide, by decide, by decide, by decide, by decide⟩

/-- C3 counterexample: the claim says a supplied maximum size always
yields a content-length constraint, but the conditional spread tests
the number for truthiness, so a supplied maximum of zero produces no
ContentLength on the signed put command. -/
theorem claim3_counterexample :
    (s3GeneratePresignedUploadUrl cfg0 id (fun _ => "[]") "k.png" "image/png"
        none (some 0)).1.1.contentLength = none ∧
    (some (0 : Int)) ≠ (none : Option Int) :=
  ⟨rfl, by decide⟩

/-- C3 as amended: the signed put command carries the bucket, the
prefix-qualified key, the content-type constraint and the encoded
metadata headers, and carries the content-length constraint whenever a
nonzero maximum size is supplied (a zero maximum is dropped by the
truthiness guard); the signed get command carries the bucket and the
prefix-qualified key; the put is signed with the upload expiry window
and the get with the separately configured get expiry window. -/
theorem claim3_signed_requests (cfg : Config) (encURI : String → String)
    (js : List String → String) (key ct : String) (m : FileMetadata)
    (maxSize : Option Int) (n : Int) :
    (s3GeneratePresignedUploadUrl cfg encURI js key ct (some m) maxSize).1.1.bucket =
      cfg.bucketName ∧
    (s3GeneratePresignedUploadUrl cfg encURI js key ct (some m) maxSize).1.1.key =
      cfg.pfx ++ key ∧
    (s3GeneratePresignedUploadUrl cfg encURI js key ct (some m) maxSize).1.1.contentType =
      ct ∧
    (s3GeneratePresignedUploadUrl cfg encURI js key ct (some m) maxSize).1.1.metadataHeaders =
      encodeMetadata encURI js m ∧
    (maxSize = some n → n ≠ 0 →
      (s3GeneratePresignedUploadUrl cfg encURI js key ct (some m) maxSize).1.1.contentLength =
        some n) ∧
    (s3GeneratePresignedUploadUrl cfg encURI js key ct (some m) maxSize).1.2 =
      cfg.uploadExpirySeconds ∧
    (s3GeneratePresignedGetUrl cfg key).1.1 =
      { bucket := cfg.bucketName, key := cfg.pfx ++ key } ∧
    (s3GeneratePresignedGetUrl cfg key).1.2 = cfg.getExpirySeconds := by
  refine ⟨rfl, rfl, rfl, rfl, ?_, rfl, rfl, rfl⟩
  rintro rfl hn

  simp [s3GeneratePresignedUploadUrl, hn]

/-- Witness for C3: with a 1024-byte maximum the signed put command
carries the constraint and both expiry windows come from their own
configuration fields. -/
theorem claim3_witness :
    (s3GeneratePresignedUploadUrl cfg0 id (fun _ => "[]") "k.png" "image/png"
        (some { userId := some "u" }) (some 1024)).1.1.contentLength = some 1024 ∧
    (s3GeneratePresignedUploadUrl cfg0 id (fun _ => "[]") "k.png" "image/png"
        (some { userId := some "u" }) (some 1024)).1.2 = 900 ∧
    (s3GeneratePresignedGetUrl cfg0 "k.png").1.2 = 3600 :=
  ⟨(claim3_signed_requests cfg0 id (fun _ => "[]") "k.png" "image/png"
      { userId := some "u" } (some 1024) 1024).2.2.2.2.1 rfl (by decide),
   (claim3_signed_requests cfg0 id (fun _ => "[]") "k.png" "image/png"
      { userId := some "u" } (some 1024) 1024).2.2.2.2.2.1,
   (claim3_signed_requests cfg0 id (fun _ => "[]") "k.png" "image/png"
      { userId := some "u" } (some 1024) 1024).2.2.2.2.2.2.2⟩

/-- C2 counterexample: the encoder emits a field only when it is truthy
in JS, so a metadata record whose userId is present but empty encodes
to no header at all and decodes back with userId absent — the
round-trip law fails on that record even though it is restricted to the
schema fields. -/
theorem claim2_counterexample :
    decodeMetadata id (fun _ => none)
        (stripMetaPfx (encodeMetadata id (fun _ => "[]") { userId := some "" })) =
      some ({} : FileMetadata) ∧
    ({} : FileMetadata) ≠ { userId := some "" } := by
  refine ⟨by decide, by decide⟩

/-- C2 as amended: decoding the headers produced by encoding m gives m
back for every metadata record restricted to the schema fields whose
string fields are, when present, non-empty (an empty-string userId,
originalFilename or description is dropped by the truthiness guards and
comes back absent); entries outside the schema are never preserved
(the decoded record always has an empty extension map).  The external
percent-encoding pair is assumed inverse and empty-string preserving,
and the external JSON pair is assumed inverse and non-empty on the tags
value actually present. -/
theorem claim2_metadata_roundtrip (encURI decURI : String → String)
    (js : List String → String) (jp : String → Option (List String)) (m : FileMetadata)
    (hinv : ∀ s, decURI (encURI s) = s)
    (hne : ∀ s, s ≠ "" → encURI s ≠ "")
    (hjs : ∀ l, m.tags = some l → jp (js l) = some l ∧ js l ≠ "")
    (hu : m.userId ≠ some "") (hf : m.originalFilename ≠ some "")
    (hd : m.description ≠ some "") :
    decodeMetadata decURI jp (stripMetaPfx (encodeMetadata encURI js m)) =
      some { m with extra := [] } := by
  obtain ⟨u, fn, tg, pb, ds, ex⟩ := m
  rcases u with _ | u <;> rcases fn with _ | fn <;> rcases tg with _ | tg <;>
    rcases pb with _ | (_ | _) <;> rcases ds with _ | ds <;>
    simp_all +decide [encodeMetadata, stripMetaPfx, decodeMetadata, getTruthy,
      List.lookup, strStartsWith]

/-- Witness for C2: a fully populated record with non-empty strings
round-trips through the header codec. -/
theorem claim2_witness :
    decodeMetadata id (fun s => if s = "[]" then some ["x", "y"] else none)
        (stripMetaPfx (encodeMetadata id (fun _ => "[]")
          { userId := some "u7", originalFilename := some "a b.png",
            tags := some ["x", "y"], isPublic := some false,
            description := some "d" })) =
      some { userId := some "u7", originalFilename := some "a b.png",
             tags := some ["x", "y"], isPublic := some false,
             description := some "d" } :=
  claim2_metadata_roundtrip id id (fun _ => "[]")
    (fun s => if s = "[]" then some ["x", "y"] else none)
    { userId := some "u7", originalFilename := some "a b.png",
      tags := some ["x", "y"], isPublic := some false, description := some "d" }
    (fun _ => rfl) (fun _ h => h)
    (fun l hl => by
      cases hl
      exact ⟨by decide, by decide⟩)
    (by decide) (by decide) (by decide)

end Upload
